import Mathlib

/-!
Verification of the plugin registry and lifecycle engine of
`tovi-cn/vitesse-electron` (the pluggable-electron plugin manager embedded
under `packages/main/src/pluggable/pluginMgr`).

The embedding models:
* the store module (`store.ts`): the module-level `plugins` object and the
  functions `getPlugin`, `getAllPlugins`, `getActivePlugins`, `removePlugin`,
  `addPlugin`, `persistPlugins`, `installPlugin`, and the `confirmInstall`
  default;
* the manager module (`index.ts`): `registerPluginProtocol`'s request handler,
  `usePlugins`'s load pass, and `loadPlugin`.

JavaScript plain objects are modelled as association lists of key/value pairs
in insertion order (`JsObj`); assignment to an existing key updates the value
in place, assignment to a fresh key appends, and `delete` removes the key.
Filesystem effects (`writeFileSync`, `rmdirSync`) are modelled by explicit
fields of a `World` record: the contents of the persisted registry file, a
count of file writes, and the set of on-disk plugin folders.
-/

namespace PluginMgr

/-- A JavaScript plain object with string keys: key/value pairs in insertion
order. -/
abbrev JsObj (α : Type) := List (String × α)

/-- Reading `obj[k]`: the value at key `k`, if present (first occurrence). -/
def objGet {α : Type} (m : JsObj α) (k : String) : Option α :=
  (m.find? (fun kv => kv.1 = k)).map (fun kv => kv.2)

/-- Assignment `obj[k] = v`: update in place when the key exists (JavaScript keeps the
original insertion position), append otherwise. -/
def objSet {α : Type} (m : JsObj α) (k : String) (v : α) : JsObj α :=
  if m.any (fun kv => kv.1 = k) then
    m.map (fun kv => if kv.1 = k then (k, v) else kv)
  else m ++ [(k, v)]

/-- Deletion `delete obj[k]`: removes the key.  On a plain object every property is
configurable, so the JavaScript `delete` operator evaluates to `true` whether
or not the key was present. -/
def objDelete {α : Type} (m : JsObj α) (k : String) : JsObj α :=
  m.filter (fun kv => kv.1 ≠ k)

/-- Enumeration `Object.values(obj)`: the values in insertion order. -/
def objValues {α : Type} (m : JsObj α) : List α := m.map (fun kv => kv.2)

/-- A plugin record (the `Plugin` instance as the store uses it).  Field names
drop the source's underscore sigils: `active` is `_active`, `toUninstall` is
`_toUninstall`, `listeners` is `_listeners`.  `listeners` holds the names of
callbacks registered through `subscribe`; `dependencies` is the resolved
runtime dependency info.  Both are ephemeral: `persistPlugins` strips them. -/
structure Plugin where
  name : String
  source : String
  active : Bool
  toUninstall : Bool
  listeners : List String
  dependencies : Option String
deriving DecidableEq, Repr

/-- The persisted shape of a record: `persistPlugins` destructures away
`_listeners` and `dependencies` and keeps the rest. -/
structure PersistedPlugin where
  name : String
  source : String
  active : Bool
  toUninstall : Bool
deriving DecidableEq, Repr

/-- The destructuring `const { _listeners, dependencies, ...plugin } = plugins[name]`
in `persistPlugins`: every field except the ephemeral two. -/
def stripEphemeral (p : Plugin) : PersistedPlugin :=
  { name := p.name, source := p.source, active := p.active, toUninstall := p.toUninstall }

/-- Subscription `plugin.subscribe(cb)`: record a mutation callback on the plugin. -/
def subscribe (p : Plugin) (cb : String) : Plugin :=
  { p with listeners := p.listeners ++ [cb] }

/-- The observable state the store and manager mutate: the module-level
`plugins` object, the contents of the persisted registry file (`none` when the
file does not exist), a count of `writeFileSync` calls, the set of on-disk
plugin folders, and the configured plugins root. -/
structure World where
  plugins : JsObj Plugin
  file : Option (JsObj PersistedPlugin)
  writes : Nat
  folders : List String
  pluginsPath : String
deriving DecidableEq, Repr

/-- Function `getPlugin(name)` from `store.ts`: throws `Plugin ${name} does not exist`
when the key is absent, otherwise returns the stored record. -/
def getPlugin (w : World) (name : String) : Except String Plugin :=
  match objGet w.plugins name with
  | none => .error ("Plugin " ++ name ++ " does not exist")
  | some p => .ok p

/-- Function `getAllPlugins()` from `store.ts`: `Object.values(plugins)`. -/
def getAllPlugins (w : World) : List Plugin := objValues w.plugins

/-- Function `getActivePlugins()` from `store.ts`:
`Object.values(plugins).filter(plugin => plugin._active)`. -/
def getActivePlugins (w : World) : List Plugin :=
  (objValues w.plugins).filter (fun p => p.active)

/-- Function `persistPlugins()` from `store.ts`: strips the ephemeral fields of every
record, then `writeFileSync` rewrites the registry file with the full
name-to-record mapping. -/
def persistPlugins (w : World) : World :=
  let persistData : JsObj PersistedPlugin :=
    w.plugins.map (fun kv => (kv.1, stripEphemeral kv.2))
  { w with file := some persistData, writes := w.writes + 1 }

/-- Function `removePlugin(name, persist)` from `store.ts`: `delete plugins[name]`,
conditionally persist, and return the result of `delete` — which on a plain
object is `true` even when the key was absent. -/
def removePlugin (name : String) (persist : Bool) (w : World) : World × Bool :=
  let w1 : World := { w with plugins := objDelete w.plugins name }
  (if persist then persistPlugins w1 else w1, true)

/-- Function `addPlugin(plugin, persist)` from `store.ts`: `plugins[plugin.name] = plugin`,
conditionally persist, then `plugin.subscribe(persistPlugins)`.  The source
subscribes after persisting, but the persisted projection strips listeners, so
storing the subscribed record up front writes an identical file. -/
def addPlugin (plugin : Plugin) (persist : Bool) (w : World) : World :=
  let stored := subscribe plugin "persistPlugins"
  let w1 : World := { w with plugins := objSet w.plugins plugin.name stored }
  if persist then persistPlugins w1 else w1

/-- What the configured install confirmer yields for a given specifier.  The
source's default `confirmInstall` (store.ts lines 114-118) is a function that
returns an `Error` object — the not-configured sentinel — so a confirmer is
either that sentinel or a boolean verdict. -/
inductive ConfirmerResult where
  | err : String → ConfirmerResult
  | ok : Bool → ConfirmerResult
deriving DecidableEq, Repr

/-- The default `confirmInstall` from `store.ts`: returns (not throws) an
`Error` telling the integrator to configure the callback. -/
def defaultConfirmInstall : ConfirmerResult :=
  .err ("The facade.confirmInstall callback needs to be set in when initializing " ++
    "Pluggable Electron in the main process.")

/-- The install failure surface named by the spec. -/
inductive InstallError where
  | notConfigured : InstallError
  | installRejected : InstallError
  | fetchFailed : InstallError
deriving DecidableEq, Repr

/-- Modelled from the spec: `Plugin._install` (the `Plugin` class is not under
`src/`).  Per the spec, install "invokes the configured install confirmer; if
it returns false or errors, the install aborts and no record is created": the
not-configured sentinel yields `NotConfigured`, a `false` verdict yields
`InstallRejected`, a `true` verdict lets the install proceed. -/
def pluginInstallStep (confirmer : ConfirmerResult) : Except InstallError Unit :=
  match confirmer with
  | .err _ => .error .notConfigured
  | .ok false => .error .installRejected
  | .ok true => .ok ()

/-- Modelled from the spec: constructing `new Plugin(spec, options)` (the
`Plugin` class is not under `src/`).  A fresh record for the given specifier:
inactive, not marked for removal, no listeners, no resolved dependencies. -/
def newPlugin (spec : String) : Plugin :=
  { name := spec, source := spec, active := false, toUninstall := false,
    listeners := [], dependencies := none }

/-- Function `installPlugin(spec, options, store)` from `store.ts`: build the plugin,
run its install step (which invokes the confirmer), and only on success add it
to the store (with the default `persist = true`).  When the install step
throws, the exception propagates before `addPlugin` runs, so the returned
world is unchanged. -/
def installPlugin (confirmer : ConfirmerResult) (spec : String) (store : Bool)
    (w : World) : World × Except InstallError Plugin :=
  let plugin := newPlugin spec
  match pluginInstallStep confirmer with
  | .error e => (w, .error e)
  | .ok _ => (if store then addPlugin plugin true w else w, .ok plugin)

/-- Path join `resolve(_pluginsPath, name)` in `loadPlugin` for a relative folder name:
join below the plugins root. -/
def resolveUnder (base name : String) : String := base ++ "/" ++ name

/-- The `new Plugin()` populated with a serialized entry's fields, as the
`for (const key in plg) plugin[key] = plg[key]` loop of `loadPlugin` builds
it: the persisted fields are copied over, the ephemeral fields keep a fresh
instance's defaults (no listeners, no resolved dependencies). -/
def fromPersisted (e : PersistedPlugin) : Plugin :=
  { name := e.name, source := e.source, active := e.active,
    toUninstall := e.toUninstall, listeners := [], dependencies := none }

/-- The non-throwing body of `loadPlugin(plg)` from `index.ts`: when the entry
is marked `_toUninstall`, `rmdirSync` its folder under the plugins root
recursively and do not re-register it; otherwise populate a `new Plugin()`
with the entry's persisted fields and `addPlugin(plugin, false)` — no
per-record persist. -/
def loadPluginOk (e : PersistedPlugin) (w : World) : World :=
  if e.toUninstall then
    { w with folders := w.folders.filter (fun f => f ≠ resolveUnder w.pluginsPath e.name) }
  else
    addPlugin (fromPersisted e) false w

/-- Function `loadPlugin(plg)` with its failure surface.  Modelled from the spec: an
entry "fails to reconstruct" when a throwing collaborator (the filesystem
delete, or populating the `Plugin` instance — the `Plugin` class is not under
`src/`) raises; which entries fail is abstracted as the oracle `fail`. -/
def loadPlugin (fail : PersistedPlugin → Bool) (e : PersistedPlugin) (w : World) :
    Except String World :=
  if fail e then .error "entry reconstruction failed" else .ok (loadPluginOk e w)

/-- The error `usePlugins` throws when any `loadPlugin` call throws. -/
def loadErrorMsg : String :=
  "Could not successfully rebuild list of installed plugins. " ++
  "Please check the plugins.json file in the plugins folder"

/-- The `try { for (const p in plugins) loadPlugin(plugins[p]); persistPlugins() }
catch { throw new Error(...) }` loop of `usePlugins`.  The module-level
`plugins` object is mutated in place, so when an entry throws, the world at
the moment of the throw — including every record registered so far — is what
the caller observes alongside the error. -/
def loadLoop (fail : PersistedPlugin → Bool) :
    List PersistedPlugin → World → World × Option String
  | [], w => (persistPlugins w, none)
  | e :: rest, w =>
    match loadPlugin fail e w with
    | .ok w1 => loadLoop fail rest w1
    | .error _ => (w, some loadErrorMsg)

/-- The `for (const plugin of getAllPlugins()) removePlugin(plugin.name, false)`
pass of `usePlugins`: iterate over a snapshot of the values and delete each by
its `name`, without persisting. -/
def clearAll (w : World) : World :=
  (objValues w.plugins).foldl (fun acc p => (removePlugin p.name false acc).1) w

/-- The load pass of `usePlugins(pluginsPath)` from `index.ts` (for a
non-empty `pluginsPath`): store the plugins root, clear every registered
plugin without persisting, and if the registry file exists, run `loadPlugin`
over each serialized entry followed by one batched persist, converting any
entry failure into the descriptive load error. -/
def usePlugins (fail : PersistedPlugin → Bool) (pluginsPath : String) (w : World) :
    World × Option String :=
  let w0 : World := { w with pluginsPath := pluginsPath }
  let w1 := clearAll w0
  match w0.file with
  | none => (w1, none)
  | some entries => loadLoop fail (objValues entries) w1

/-- Split a character list at every `/`, yielding the `/`-separated segments
(as strings).  This is the segment decomposition POSIX `path.normalize`
operates on. -/
def splitOnSlash : List Char → List String
  | [] => [""]
  | c :: cs =>
    match splitOnSlash cs with
    | [] => [String.mk [c]]
    | s :: rest =>
      if c = '/' then "" :: s :: rest
      else String.mk (c :: s.data) :: rest

/-- The `/`-separated segments of a path. -/
def pathSegments (p : String) : List String := splitOnSlash p.data

/-- Whether a path is absolute: it begins with `/`. -/
def isAbsolute (p : String) : Bool :=
  match p.data with
  | [] => false
  | c :: _ => c = '/'

/-- POSIX `path.normalize` segment resolution: `.` and empty segments vanish;
`..` pops the last real segment, is dropped at the root of an absolute path,
and accumulates at the front of a relative path.  The resolved stack is kept
in reverse order. -/
def normStack (isAbs : Bool) : List String → List String → List String
  | stack, [] => stack
  | stack, seg :: rest =>
    if seg = "" || seg = "." then normStack isAbs stack rest
    else if seg = ".." then
      match stack with
      | [] => normStack isAbs (if isAbs then [] else [".."]) rest
      | s :: tail =>
        if s = ".." then normStack isAbs (".." :: s :: tail) rest
        else normStack isAbs tail rest
    else normStack isAbs (seg :: stack) rest

/-- The segments of the normalized form of `p` (in order). -/
def resolvedSegments (p : String) : List String :=
  (normStack (isAbsolute p) [] (pathSegments p)).reverse

/-- Node's `normalize(p)` (POSIX): resolve `.` and `..` segments and collapse
separators; an empty relative result is `"."`. -/
def normalizePath (p : String) : String :=
  let body := String.intercalate "/" (resolvedSegments p)
  if isAbsolute p then "/" ++ body
  else if body = "" then "." else body

/-- The request handler `registerPluginProtocol` installs for the `plugin`
scheme: `entry = request.url.substr(8)`, then
`callback({ path: normalize(_pluginsPath + entry) })` — every request is
answered with the normalized concatenation, unconditionally. -/
def pluginProtocolHandler (pluginsPath url : String) : String :=
  let entry := url.drop 8
  normalizePath (pluginsPath ++ entry)

/-- Whether `p` is the plugins root itself or strictly below it. -/
def isUnderRoot (root p : String) : Bool :=
  p = root || List.isPrefixOf (root ++ "/").data p.data

/-! ### Helper lemmas about the JavaScript-object model -/

theorem objGet_eq_none_iff {α : Type} (m : JsObj α) (k : String) :
    objGet m k = none ↔ ∀ kv ∈ m, kv.1 ≠ k := by
  simp [objGet, List.find?_eq_none]

theorem objSet_of_absent {α : Type} (m : JsObj α) (k : String) (v : α)
    (h : objGet m k = none) : objSet m k v = m ++ [(k, v)] := by
  have hall := (objGet_eq_none_iff m k).mp h
  have : m.any (fun kv => kv.1 = k) = false := by
    simp only [List.any_eq_false, decide_eq_true_eq]
    exact hall
  simp [objSet, this]

theorem objGet_objDelete_self {α : Type} (m : JsObj α) (k : String) :
    objGet (objDelete m k) k = none := by
  rw [objGet_eq_none_iff]
  intro kv hkv
  have := (List.mem_filter.mp hkv).2
  simpa using this

theorem objDelete_of_absent {α : Type} (m : JsObj α) (k : String)
    (h : objGet m k = none) : objDelete m k = m := by
  have hall := (objGet_eq_none_iff m k).mp h
  rw [objDelete, List.filter_eq_self]
  intro kv hkv
  simpa using hall kv hkv

theorem objGet_append_absent {α : Type} (m : JsObj α) (k k' : String) (v : α)
    (h : objGet m k' = none) (hne : k' ≠ k) : objGet (m ++ [(k, v)]) k' = none := by
  rw [objGet_eq_none_iff] at h ⊢
  intro kv hkv
  rcases List.mem_append.mp hkv with hm | hs
  · exact h kv hm
  · simp only [List.mem_singleton] at hs
    subst hs
    simpa using fun he => hne he.symm

theorem mem_objDelete {α : Type} {m : JsObj α} {k : String} {kv : String × α}
    (h : kv ∈ objDelete m k) : kv ∈ m ∧ kv.1 ≠ k := by
  have := List.mem_filter.mp h
  exact ⟨this.1, by simpa using this.2⟩

/-! ### Helper lemmas about the store operations -/

theorem persistPlugins_plugins (w : World) : (persistPlugins w).plugins = w.plugins := rfl

theorem addPlugin_plugins (p : Plugin) (b : Bool) (w : World) :
    (addPlugin p b w).plugins = objSet w.plugins p.name (subscribe p "persistPlugins") := by
  cases b <;> simp [addPlugin, persistPlugins]

theorem clearAll_fields (w : World) :
    (clearAll w).file = w.file ∧ (clearAll w).writes = w.writes ∧
    (clearAll w).folders = w.folders ∧ (clearAll w).pluginsPath = w.pluginsPath := by
  unfold clearAll
  generalize objValues w.plugins = vs
  induction vs generalizing w with
  | nil => exact ⟨rfl, rfl, rfl, rfl⟩
  | cons p vs ih => simpa [removePlugin] using ih { w with plugins := objDelete w.plugins p.name }

theorem foldDel_plugins (vs : List Plugin) (w : World) :
    ((vs.foldl (fun acc p => (removePlugin p.name false acc).1) w)).plugins =
      vs.foldl (fun l p => objDelete l p.name) w.plugins := by
  induction vs generalizing w with
  | nil => rfl
  | cons p vs ih => simpa [removePlugin] using ih { w with plugins := objDelete w.plugins p.name }

theorem mem_foldl_objDelete {kv : String × Plugin} :
    ∀ (vs : List Plugin) (l : JsObj Plugin),
    kv ∈ vs.foldl (fun l p => objDelete l p.name) l → kv ∈ l ∧ ∀ p ∈ vs, kv.1 ≠ p.name
  | [], l, h => ⟨h, by simp⟩
  | p :: vs, l, h => by
    have ih := mem_foldl_objDelete vs (objDelete l p.name) h
    have hd := mem_objDelete ih.1
    refine ⟨hd.1, ?_⟩
    intro q hq
    rcases List.mem_cons.mp hq with hq | hq
    · subst hq; exact hd.2
    · exact ih.2 q hq

theorem clearAll_plugins (w : World)
    (hk : ∀ kv ∈ w.plugins, kv.2.name = kv.1) : (clearAll w).plugins = [] := by
  rw [List.eq_nil_iff_forall_not_mem]
  intro kv hkv
  rw [clearAll, foldDel_plugins] at hkv
  have h := mem_foldl_objDelete (objValues w.plugins) w.plugins hkv
  have hv : kv.2 ∈ objValues w.plugins := List.mem_map.mpr ⟨kv, h.1, rfl⟩
  exact h.2 kv.2 hv (hk kv h.1).symm

/-! ### Helper lemmas about the load pass -/

/-- The registry object a successful full load pass appends: one entry per
serialized record, rebuilt and subscribed to the persistence callback. -/
def rebuiltEntries (es : List PersistedPlugin) : JsObj Plugin :=
  es.map (fun e => (e.name, subscribe (fromPersisted e) "persistPlugins"))

theorem loadLoop_clean (fail : PersistedPlugin → Bool) :
    ∀ (es : List PersistedPlugin) (w : World),
    (∀ e ∈ es, fail e = false) →
    (∀ e ∈ es, e.toUninstall = false) →
    (es.map PersistedPlugin.name).Nodup →
    (∀ e ∈ es, objGet w.plugins e.name = none) →
    loadLoop fail es w =
      (persistPlugins { w with plugins := w.plugins ++ rebuiltEntries es }, none)
  | [], w, _, _, _, _ => by simp [loadLoop, rebuiltEntries]
  | e :: es, w, hf, hu, hnd, hg => by
    have hfe : fail e = false := hf e (by simp)
    have hue : e.toUninstall = false := hu e (by simp)
    have hge : objGet w.plugins e.name = none := hg e (by simp)
    have hset : objSet w.plugins e.name (subscribe (fromPersisted e) "persistPlugins") =
        w.plugins ++ [(e.name, subscribe (fromPersisted e) "persistPlugins")] :=
      objSet_of_absent w.plugins e.name _ hge
    have haddf : addPlugin (fromPersisted e) false w =
        { w with plugins := objSet w.plugins e.name (subscribe (fromPersisted e) "persistPlugins") } :=
      rfl
    have hstep : loadPlugin fail e w =
        .ok { w with plugins := w.plugins ++ [(e.name, subscribe (fromPersisted e) "persistPlugins")] } := by
      rw [loadPlugin, if_neg (by simp [hfe]), loadPluginOk, if_neg (by simp [hue]), haddf, hset]
    have hnd0 : (∀ x ∈ es, ¬ x.name = e.name) ∧ (es.map PersistedPlugin.name).Nodup := by
      simpa using hnd
    have hnd' := hnd0.2
    have hne : ∀ e' ∈ es, e'.name ≠ e.name := fun e' he' => hnd0.1 e' he'
    have ih := loadLoop_clean fail es
      { w with plugins := w.plugins ++ [(e.name, subscribe (fromPersisted e) "persistPlugins")] }
      (fun e' he' => hf e' (by simp [he'])) (fun e' he' => hu e' (by simp [he'])) hnd'
      (fun e' he' => objGet_append_absent _ _ _ _ (hg e' (by simp [he'])) (hne e' he'))
    simp only [loadLoop, hstep, ih, rebuiltEntries, List.map_cons, List.append_assoc,
      List.singleton_append]

theorem loadLoop_fail (fail : PersistedPlugin → Bool) :
    ∀ (es : List PersistedPlugin) (w : World), es.any fail = true →
    loadLoop fail es w =
      ((es.takeWhile (fun e => !fail e)).foldl (fun acc e => loadPluginOk e acc) w,
       some loadErrorMsg)
  | [], _, h => by simp at h
  | e :: es, w, h => by
    by_cases hfe : fail e = true
    · have hstep : loadPlugin fail e w = .error "entry reconstruction failed" := by
        rw [loadPlugin, if_pos (by simp [hfe])]
      simp only [loadLoop, hstep, List.takeWhile_cons, hfe]
      simp
    · have hfe' : fail e = false := by simpa using hfe
      have h' : es.any fail = true := by simpa [List.any_cons, hfe'] using h
      have hstep : loadPlugin fail e w = .ok (loadPluginOk e w) := by
        rw [loadPlugin, if_neg (by simp [hfe'])]
      have ih := loadLoop_fail fail es (loadPluginOk e w) h'
      simp only [loadLoop, hstep, ih, List.takeWhile_cons, hfe']
      simp [List.foldl_cons]

/-! ### Helper lemmas about path normalization -/

theorem normStack_no_dotdot :
    ∀ (segs stack : List String), ".." ∉ stack → ".." ∉ normStack true stack segs
  | [], _, h => by simpa only [normStack] using h
  | seg :: rest, stack, h => by
    simp only [normStack]
    by_cases h1 : (seg = "" || seg = ".") = true
    · rw [if_pos h1]
      exact normStack_no_dotdot rest stack h
    · rw [if_neg h1]
      by_cases h2 : seg = ".."
      · rw [if_pos h2]
        match stack, h with
        | [], _ =>
          have := normStack_no_dotdot rest [] (by simp)
          simpa using this
        | s :: tail, h =>
          have hs : s ≠ ".." := fun hs => h (by simp [hs])
          have := normStack_no_dotdot rest tail (fun ht => h (by simp [ht]))
          simpa [hs] using this
      · rw [if_neg h2]
        exact normStack_no_dotdot rest (seg :: stack)
          (by intro hm; rcases List.mem_cons.mp hm with hm | hm
              · exact h2 hm.symm
              · exact h hm)

/-! ### Concrete sample data -/

/-- A record that is both active and marked for removal. -/
def dualRecord : Plugin :=
  { name := "a", source := "sa", active := true, toUninstall := true,
    listeners := [], dependencies := none }

/-- A registry holding only `dualRecord`. -/
def dualWorld : World :=
  { plugins := [("a", dualRecord)], file := none, writes := 0,
    folders := ["/r/a"], pluginsPath := "/r" }

/-! ### Claims -/

/-- C1: the claim as stated is false on the code.  `getActivePlugins`
filters only on the `_active` flag, so a record that is active and marked
`pendingRemoval` is surfaced: for the concrete registry `dualWorld`,
`getActivePlugins` returns the record even though its `toUninstall` flag is
set. -/
theorem c1_counterexample :
    getActivePlugins dualWorld = [dualRecord] ∧ dualRecord.toUninstall = true := by
  decide

/-- C1 (amended): every record returned by `getActivePlugins` has
`active = true`; the filter does not inspect `pendingRemoval`, so nothing
more can be guaranteed over all registry states. -/
theorem c1_active_filter (w : World) (p : Plugin) (h : p ∈ getActivePlugins w) :
    p.active = true := by
  have := List.mem_filter.mp (by simpa [getActivePlugins] using h)
  exact this.2

/-- Witness for `c1_active_filter` at the concrete registry `dualWorld`. -/
theorem c1_active_filter_witness : dualRecord.active = true :=
  c1_active_filter dualWorld dualRecord (by decide)

/-- The registry world used to refute the round-trip claim: one record
marked for removal. -/
def pendingRecord : Plugin :=
  { name := "b", source := "sb", active := true, toUninstall := true,
    listeners := [], dependencies := none }

def pendingWorld : World :=
  { plugins := [("b", pendingRecord)], file := none, writes := 0,
    folders := ["/r/b"], pluginsPath := "/r" }

/-- C2: the claim as stated is false on the code.  For the registry
`pendingWorld`, whose single valid record has `pendingRemoval = true`,
persisting and then loading does not reproduce the same set of names: the
load pass deletes the entry instead of re-registering it, leaving an empty
registry. -/
theorem c2_counterexample :
    (objGet pendingWorld.plugins "b").isSome = true ∧
    (usePlugins (fun _ => false) "/r" (persistPlugins pendingWorld)).1.plugins = [] := by
  decide

/-- C2 (amended): for any well-keyed registry all of whose records have
`pendingRemoval = false`, `persistPlugins` followed by the `usePlugins` load
pass succeeds and reproduces an equivalent registry: the same name-to-record
mapping up to the persisted fields (`name`, `source`, `active`,
`pendingRemoval`), with the ephemeral fields reset (the listeners hold
exactly the store's persistence callback and the dependencies are cleared).
Records with `pendingRemoval = true` are instead dropped by the load pass. -/
theorem c2_roundtrip (w : World) (path : String)
    (hnd : (w.plugins.map Prod.fst).Nodup)
    (hk : ∀ kv ∈ w.plugins, kv.2.name = kv.1)
    (hc : ∀ kv ∈ w.plugins, kv.2.toUninstall = false) :
    (usePlugins (fun _ => false) path (persistPlugins w)).2 = none ∧
    (usePlugins (fun _ => false) path (persistPlugins w)).1.plugins.map
        (fun kv => (kv.1, stripEphemeral kv.2)) =
      w.plugins.map (fun kv => (kv.1, stripEphemeral kv.2)) ∧
    ∀ kv ∈ (usePlugins (fun _ => false) path (persistPlugins w)).1.plugins,
      kv.2.listeners = ["persistPlugins"] ∧ kv.2.dependencies = none := by
  have hstep : usePlugins (fun _ => false) path (persistPlugins w) =
      loadLoop (fun _ => false)
        (objValues (w.plugins.map (fun kv => (kv.1, stripEphemeral kv.2))))
        (clearAll { persistPlugins w with pluginsPath := path }) := rfl
  have hw1p : (clearAll { persistPlugins w with pluginsPath := path }).plugins = [] :=
    clearAll_plugins _ (fun kv hkv => hk kv hkv)
  have hes : objValues (w.plugins.map (fun kv => (kv.1, stripEphemeral kv.2))) =
      w.plugins.map (fun kv => stripEphemeral kv.2) := by
    simp [objValues, List.map_map]
  have hclean := loadLoop_clean (fun _ => false)
    (w.plugins.map (fun kv => stripEphemeral kv.2))
    (clearAll { persistPlugins w with pluginsPath := path })
    (fun _ _ => rfl)
    (fun e he => by
      obtain ⟨kv, hkv, rfl⟩ := List.mem_map.mp he
      exact hc kv hkv)
    (by
      have hmm : (w.plugins.map (fun kv => stripEphemeral kv.2)).map PersistedPlugin.name =
          w.plugins.map Prod.fst := by
        rw [List.map_map]
        exact List.map_congr_left (fun kv hkv => hk kv hkv)
      rw [hmm]; exact hnd)
    (fun e _ => by rw [hw1p]; rfl)
  have hRp : (usePlugins (fun _ => false) path (persistPlugins w)).1.plugins =
      rebuiltEntries (w.plugins.map (fun kv => stripEphemeral kv.2)) := by
    rw [hstep, hes, hclean]
    show (persistPlugins _).plugins = _
    rw [persistPlugins_plugins]
    show (clearAll { persistPlugins w with pluginsPath := path }).plugins ++ _ = _
    rw [hw1p, List.nil_append]
  have hR2 : (usePlugins (fun _ => false) path (persistPlugins w)).2 = none := by
    rw [hstep, hes, hclean]
  refine ⟨hR2, ?_, ?_⟩
  · rw [hRp]
    simp only [rebuiltEntries, List.map_map]
    refine List.map_congr_left ?_
    intro kv hkv
    exact Prod.ext (hk kv hkv) rfl
  · rw [hRp]
    intro kv hkv
    obtain ⟨e, _, rfl⟩ := List.mem_map.mp hkv
    exact ⟨rfl, rfl⟩

/-- A well-keyed registry with one clean (not marked for removal) record,
used to witness the round-trip theorem. -/
def cleanRecord : Plugin :=
  { name := "c", source := "sc", active := true, toUninstall := false,
    listeners := [], dependencies := none }

def cleanWorld : World :=
  { plugins := [("c", cleanRecord)], file := none, writes := 0,
    folders := ["/r/c"], pluginsPath := "/r" }

/-- Witness for `c2_roundtrip` at the concrete registry `cleanWorld`. -/
theorem c2_roundtrip_witness :
    (usePlugins (fun _ => false) "/r" (persistPlugins cleanWorld)).2 = none ∧
    (usePlugins (fun _ => false) "/r" (persistPlugins cleanWorld)).1.plugins.map
        (fun kv => (kv.1, stripEphemeral kv.2)) =
      cleanWorld.plugins.map (fun kv => (kv.1, stripEphemeral kv.2)) ∧
    ∀ kv ∈ (usePlugins (fun _ => false) "/r" (persistPlugins cleanWorld)).1.plugins,
      kv.2.listeners = ["persistPlugins"] ∧ kv.2.dependencies = none :=
  c2_roundtrip cleanWorld "/r" (by decide) (by decide) (by decide)

/-- Serialized entries and a failure oracle for the load-failure claims: the
first entry loads, the second fails. -/
def entryA : PersistedPlugin :=
  { name := "a", source := "sa", active := false, toUninstall := false }

def entryC : PersistedPlugin :=
  { name := "c", source := "sc", active := false, toUninstall := false }

def failWorld : World :=
  { plugins := [], file := some [("a", entryA), ("c", entryC)], writes := 0,
    folders := [], pluginsPath := "/r" }

def failOnC : PersistedPlugin → Bool := fun e => e.name = "c"

/-- C3: the claim as stated is false on the code.  Load the persisted file of
`failWorld` (entries `a` then `c`) with entry `c` failing to reconstruct: the
load fails with the descriptive error, but the registry observable afterwards
still contains the entry `a` that was processed before the failure — a
partially-rebuilt registry. -/
theorem c3_counterexample :
    (usePlugins failOnC "/r" failWorld).2 = some loadErrorMsg ∧
    (objGet (usePlugins failOnC "/r" failWorld).1.plugins "a").isSome = true := by
  decide

/-- C3 (amended): if any persisted entry fails to reconstruct, the whole load
fails with the descriptive error, but it does leave a partially-rebuilt
registry: the world observable after the failure is the cleared world with
every entry before the first failing one loaded (registered in the registry),
and the batched persist is skipped. -/
theorem c3_partial_load (fail : PersistedPlugin → Bool) (path : String) (w : World)
    (entries : JsObj PersistedPlugin) (hfile : w.file = some entries)
    (hany : (objValues entries).any fail = true) :
    usePlugins fail path w =
      (((objValues entries).takeWhile (fun e => !fail e)).foldl
          (fun acc e => loadPluginOk e acc)
          (clearAll { w with pluginsPath := path }),
       some loadErrorMsg) := by
  have hu : usePlugins fail path w =
      match w.file with
      | none => (clearAll { w with pluginsPath := path }, none)
      | some entries =>
        loadLoop fail (objValues entries) (clearAll { w with pluginsPath := path }) := rfl
  rw [hu, hfile]
  exact loadLoop_fail fail (objValues entries) _ hany

/-- Witness for `c3_partial_load` at the concrete world `failWorld`. -/
theorem c3_partial_load_witness :
    usePlugins failOnC "/r" failWorld =
      (((objValues [("a", entryA), ("c", entryC)]).takeWhile (fun e => !failOnC e)).foldl
          (fun acc e => loadPluginOk e acc)
          (clearAll { failWorld with pluginsPath := "/r" }),
       some loadErrorMsg) :=
  c3_partial_load failOnC "/r" failWorld [("a", entryA), ("c", entryC)] rfl (by decide)

/-- C4: the claim as stated is false on the code.  The plugin protocol
handler performs no traversal check and signals no `InvalidAssetPath` error:
for the plugins root `/root/plugins`, the request
`plugin://../../etc/passwd` is answered with the path `/etc/passwd`, which
lies outside the plugins root. -/
theorem c4_counterexample :
    pluginProtocolHandler "/root/plugins" "plugin://../../etc/passwd" = "/etc/passwd" ∧
    isUnderRoot "/root/plugins" "/etc/passwd" = false := by
  decide

/-- C4 (amended): the handler rejects nothing — every request is answered
with the normalization of `pluginsPath + entry`.  When that raw path is
absolute (as with an absolute plugins root), normalization leaves no
parent-directory segment in the answer, but the resolved path may still lie
outside the plugins root. -/
theorem c4_no_rejection (root url : String)
    (habs : isAbsolute (root ++ url.drop 8) = true) :
    pluginProtocolHandler root url =
      "/" ++ String.intercalate "/" (resolvedSegments (root ++ url.drop 8)) ∧
    ".." ∉ resolvedSegments (root ++ url.drop 8) := by
  constructor
  · show normalizePath (root ++ url.drop 8) = _
    simp only [normalizePath, habs, if_true]
  · rw [resolvedSegments, habs]
    intro hm
    exact normStack_no_dotdot (pathSegments (root ++ url.drop 8)) [] (by simp)
      (List.mem_reverse.mp hm)

/-- Witness for `c4_no_rejection` at a concrete root and request. -/
theorem c4_no_rejection_witness :
    pluginProtocolHandler "/root/plugins" "plugin://a/../b" =
      "/" ++ String.intercalate "/"
        (resolvedSegments ("/root/plugins" ++ "plugin://a/../b".drop 8)) ∧
    ".." ∉ resolvedSegments ("/root/plugins" ++ "plugin://a/../b".drop 8) :=
  c4_no_rejection "/root/plugins" "plugin://a/../b" (by decide)

/-- C5: confirmer gating, confirmed (the confirmer-invoking `Plugin._install`
is modelled from the spec).  With the never-configured default confirmer —
the sentinel `Error` the store ships — every install fails with
`NotConfigured` and the world (in particular the registry) is unchanged; with
a confirmer answering `false`, every install fails with `InstallRejected` and
the world is unchanged. -/
theorem c5_confirmer_gating (spec : String) (store : Bool) (w : World) :
    installPlugin defaultConfirmInstall spec store w =
      (w, .error InstallError.notConfigured) ∧
    installPlugin (.ok false) spec store w =
      (w, .error InstallError.installRejected) :=
  ⟨rfl, rfl⟩

/-- The empty registry, for the remove-miss counterexample. -/
def emptyWorld : World :=
  { plugins := [], file := none, writes := 0, folders := [], pluginsPath := "/r" }

/-- C6: the claim as stated is false on the code.  `removePlugin` returns the
result of the JavaScript `delete` operator, which on a plain object is `true`
even when the property is absent: deleting `foo` from an empty registry
returns `true`, not `false`. -/
theorem c6_counterexample :
    objGet emptyWorld.plugins "foo" = none ∧
    (removePlugin "foo" true emptyWorld).2 = true := by
  decide

/-- C6 (amended): `removePlugin` deletes the record with the given name (the
name is absent afterwards) and returns `true` unconditionally — it does not
report whether an entry existed. -/
theorem c6_remove (name : String) (persist : Bool) (w : World) :
    (removePlugin name persist w).2 = true ∧
    objGet (removePlugin name persist w).1.plugins name = none := by
  refine ⟨rfl, ?_⟩
  cases persist
  · exact objGet_objDelete_self w.plugins name
  · exact objGet_objDelete_self w.plugins name

/-- Auxiliary for C7: in a well-keyed list none of whose keys is `k`, no
value has name `k`. -/
theorem filter_values_none (k : String) :
    ∀ (l : JsObj Plugin), (∀ kv ∈ l, kv.2.name = kv.1) → (∀ kv ∈ l, kv.1 ≠ k) →
    (l.map Prod.snd).filter (fun q => q.name = k) = []
  | [], _, _ => rfl
  | kv :: l, hk, hne => by
    have h1 : kv.2.name ≠ k := by
      rw [hk kv (by simp)]
      exact hne kv (by simp)
    simp only [List.map_cons, List.filter_cons]
    rw [if_neg (by simpa using h1)]
    exact filter_values_none k l (fun kv' h => hk kv' (by simp [h]))
      (fun kv' h => hne kv' (by simp [h]))

/-- Auxiliary for C7: replacing the value at the (unique, present) key `k`
leaves exactly the replacement among the values named `k`. -/
theorem filter_values_replace (k : String) (stored : Plugin) (hstored : stored.name = k) :
    ∀ (l : JsObj Plugin), (l.map Prod.fst).Nodup → (∀ kv ∈ l, kv.2.name = kv.1) →
    (∃ kv ∈ l, kv.1 = k) →
    ((l.map (fun kv => if kv.1 = k then (k, stored) else kv)).map Prod.snd).filter
        (fun q => q.name = k) = [stored]
  | [], _, _, hex => by simp at hex
  | kv :: l, hnd, hk, hex => by
    rw [List.map_cons, List.nodup_cons] at hnd
    have hnd0 : (∀ kv' ∈ l, kv'.1 ≠ kv.1) ∧ (l.map Prod.fst).Nodup := by
      refine ⟨?_, hnd.2⟩
      intro kv' h' heq
      exact hnd.1 (List.mem_map.mpr ⟨kv', h', heq⟩)
    by_cases hkv : kv.1 = k
    · simp only [List.map_cons, if_pos hkv, List.filter_cons]
      rw [if_pos (by simpa using hstored)]
      have hrest : l.map (fun kv => if kv.1 = k then (k, stored) else kv) = l := by
        have : ∀ kv' ∈ l, (if kv'.1 = k then (k, stored) else kv') = kv' := by
          intro kv' h'
          rw [if_neg]
          rw [← hkv]
          exact hnd0.1 kv' h'
        rw [List.map_congr_left this]
        exact List.map_id' l
      rw [hrest, filter_values_none k l (fun kv' h => hk kv' (by simp [h]))
        (fun kv' h' heq => hnd0.1 kv' h' (heq.trans hkv.symm))]
    · simp only [List.map_cons, if_neg hkv, List.filter_cons]
      have h1 : kv.2.name ≠ k := by
        rw [hk kv (by simp)]
        exact hkv
      rw [if_neg (by simpa using h1)]
      have hex' : ∃ kv' ∈ l, kv'.1 = k := by
        obtain ⟨kv', h', heq⟩ := hex
        rcases List.mem_cons.mp h' with h0 | h0
        · exact absurd (h0 ▸ heq) hkv
        · exact ⟨kv', h0, heq⟩
      exact filter_values_replace k stored hstored l hnd0.2
        (fun kv' h => hk kv' (by simp [h])) hex'

/-- C7: duplicate-name install is last-write-wins, confirmed.  For a
well-keyed registry in which `p.name` is already present, after
`addPlugin p persist` the records returned by `getAllPlugins` contain exactly
one record named `p.name`, namely the new record (with the store's
persistence callback subscribed). -/
theorem c7_last_write_wins (w : World) (p : Plugin) (persist : Bool)
    (hnd : (w.plugins.map Prod.fst).Nodup)
    (hk : ∀ kv ∈ w.plugins, kv.2.name = kv.1)
    (hmem : (objGet w.plugins p.name).isSome = true) :
    (getAllPlugins (addPlugin p persist w)).filter (fun q => q.name = p.name) =
      [subscribe p "persistPlugins"] := by
  have hfind : ∃ kv ∈ w.plugins, kv.1 = p.name := by
    have h2 : ∃ x, (p.name, x) ∈ w.plugins := by
      simpa [objGet, Option.isSome_map] using hmem
    obtain ⟨x, hx⟩ := h2
    exact ⟨(p.name, x), hx, rfl⟩
  have hany : w.plugins.any (fun kv => kv.1 = p.name) = true := by
    rw [List.any_eq_true]
    obtain ⟨kv, hkv, hp⟩ := hfind
    exact ⟨kv, hkv, by simpa using hp⟩
  show (objValues (addPlugin p persist w).plugins).filter (fun q => q.name = p.name) = _
  rw [addPlugin_plugins, objSet, if_pos hany]
  exact filter_values_replace p.name (subscribe p "persistPlugins") rfl
    w.plugins hnd hk hfind

/-- Witness for `c7_last_write_wins`: reinstalling over the name `c` in
`cleanWorld` leaves exactly the new record under that name. -/
theorem c7_last_write_wins_witness :
    (getAllPlugins (addPlugin
        { name := "c", source := "s2", active := false, toUninstall := false,
          listeners := [], dependencies := none } true cleanWorld)).filter
      (fun q => q.name =
        ({ name := "c", source := "s2", active := false, toUninstall := false,
           listeners := [], dependencies := none } : Plugin).name) =
      [subscribe
        { name := "c", source := "s2", active := false, toUninstall := false,
          listeners := [], dependencies := none } "persistPlugins"] :=
  c7_last_write_wins cleanWorld
    { name := "c", source := "s2", active := false, toUninstall := false,
      listeners := [], dependencies := none } true (by decide) (by decide) (by decide)

/-- C8: the per-entry load behavior, confirmed (with the abstract
reconstruction-failure oracle answering `false` for the entry).  An entry
marked for removal has its folder under the plugins root deleted recursively
and is not re-registered (registry, file, and write count untouched); a clean
entry is rebuilt from its persisted fields and registered without any
per-record persist (file and write count untouched). -/
theorem c8_load_entry (fail : PersistedPlugin → Bool) (e : PersistedPlugin) (w : World)
    (hfe : fail e = false) :
    (e.toUninstall = true →
      loadPlugin fail e w =
        .ok { w with folders :=
                w.folders.filter (fun f => f ≠ resolveUnder w.pluginsPath e.name) }) ∧
    (e.toUninstall = false →
      loadPlugin fail e w = .ok (addPlugin (fromPersisted e) false w) ∧
      (addPlugin (fromPersisted e) false w).plugins =
        objSet w.plugins e.name (subscribe (fromPersisted e) "persistPlugins") ∧
      (addPlugin (fromPersisted e) false w).file = w.file ∧
      (addPlugin (fromPersisted e) false w).writes = w.writes ∧
      (addPlugin (fromPersisted e) false w).folders = w.folders) := by
  constructor
  · intro ht
    rw [loadPlugin, if_neg (by simp [hfe]), loadPluginOk, if_pos (by simp [ht])]
  · intro hf
    refine ⟨?_, rfl, rfl, rfl, rfl⟩
    rw [loadPlugin, if_neg (by simp [hfe]), loadPluginOk, if_neg (by simp [hf])]

/-- Witness for `c8_load_entry` at a concrete marked-for-removal entry. -/
theorem c8_load_entry_witness :
    (({ name := "b", source := "sb", active := true, toUninstall := true } :
        PersistedPlugin).toUninstall = true →
      loadPlugin (fun _ => false)
          { name := "b", source := "sb", active := true, toUninstall := true }
          pendingWorld =
        .ok { pendingWorld with folders :=
                pendingWorld.folders.filter (fun f =>
                  f ≠ resolveUnder pendingWorld.pluginsPath
                    ({ name := "b", source := "sb", active := true,
                       toUninstall := true } : PersistedPlugin).name) }) ∧
    (({ name := "b", source := "sb", active := true, toUninstall := true } :
        PersistedPlugin).toUninstall = false →
      loadPlugin (fun _ => false)
          { name := "b", source := "sb", active := true, toUninstall := true }
          pendingWorld =
        .ok (addPlugin
          (fromPersisted { name := "b", source := "sb", active := true, toUninstall := true })
          false pendingWorld) ∧
      (addPlugin
          (fromPersisted { name := "b", source := "sb", active := true, toUninstall := true })
          false pendingWorld).plugins =
        objSet pendingWorld.plugins
          ({ name := "b", source := "sb", active := true, toUninstall := true } :
            PersistedPlugin).name
          (subscribe
            (fromPersisted { name := "b", source := "sb", active := true, toUninstall := true })
            "persistPlugins") ∧
      (addPlugin
          (fromPersisted { name := "b", source := "sb", active := true, toUninstall := true })
          false pendingWorld).file = pendingWorld.file ∧
      (addPlugin
          (fromPersisted { name := "b", source := "sb", active := true, toUninstall := true })
          false pendingWorld).writes = pendingWorld.writes ∧
      (addPlugin
          (fromPersisted { name := "b", source := "sb", active := true, toUninstall := true })
          false pendingWorld).folders = pendingWorld.folders) :=
  c8_load_entry (fun _ => false)
    { name := "b", source := "sb", active := true, toUninstall := true }
    pendingWorld (by decide)

/-- C9: `getPlugin` behavior, confirmed.  For a name absent from the
registry, it fails with the error naming the missing plugin; for a present
name, it returns the stored record.  It takes the world only as input, so the
registry is unchanged by a failed lookup. -/
theorem c9_get (w : World) (name : String) :
    (objGet w.plugins name = none →
      getPlugin w name = .error ("Plugin " ++ name ++ " does not exist")) ∧
    (∀ p, objGet w.plugins name = some p → getPlugin w name = .ok p) := by
  constructor
  · intro h
    rw [getPlugin, h]
  · intro p h
    rw [getPlugin, h]

/-- Witness for `c9_get`: lookup of the absent name `zzz` and of the present
name `a` in `dualWorld`. -/
theorem c9_get_witness :
    getPlugin dualWorld "zzz" = .error ("Plugin " ++ "zzz" ++ " does not exist") ∧
    getPlugin dualWorld "a" = .ok dualRecord :=
  ⟨(c9_get dualWorld "zzz").1 (by decide), (c9_get dualWorld "a").2 dualRecord (by decide)⟩

/-- C10: `removePlugin` with `persist = true` rewrites the registry file even
when the name was absent, confirmed: the write count grows by one, the file
is rewritten with the (unchanged) registry's serialization, and the registry
itself is untouched. -/
theorem c10_persist_on_noop (name : String) (w : World)
    (h : objGet w.plugins name = none) :
    (removePlugin name true w).1.writes = w.writes + 1 ∧
    (removePlugin name true w).1.file =
      some (w.plugins.map (fun kv => (kv.1, stripEphemeral kv.2))) ∧
    (removePlugin name true w).1.plugins = w.plugins := by
  have hdel : objDelete w.plugins name = w.plugins := objDelete_of_absent w.plugins name h
  refine ⟨rfl, ?_, ?_⟩
  · show some ((objDelete w.plugins name).map (fun kv => (kv.1, stripEphemeral kv.2))) = _
    rw [hdel]
  · show objDelete w.plugins name = w.plugins
    exact hdel

/-- Witness for `c10_persist_on_noop`: removing the absent name `foo` from
`cleanWorld` with persistence still rewrites the file. -/
theorem c10_persist_on_noop_witness :
    (removePlugin "foo" true cleanWorld).1.writes = cleanWorld.writes + 1 ∧
    (removePlugin "foo" true cleanWorld).1.file =
      some (cleanWorld.plugins.map (fun kv => (kv.1, stripEphemeral kv.2))) ∧
    (removePlugin "foo" true cleanWorld).1.plugins = cleanWorld.plugins :=
  c10_persist_on_noop "foo" cleanWorld (by decide)

end PluginMgr
